import Mathlib

/-!
# frontend/vue.config.js

A shallow embedding of the build configuration exported by
frontend/vue.config.js:

    module.exports = {
      outputDir: '../static/dist',
      productionSourceMap: false,
      css: { extract: true },
      chainWebpack: function (config) {
        config.entry('app').clear().add('./src/main.js')
      }
    }

The exported object literal is embedded as a JavaScript value (an ordered list
of own properties), the hook as a state transformer on the chain configuration
it receives.  The chain configuration itself belongs to the external bundler;
its three methods used by the hook (entry, clear, add) are embedded after the
Map and Set containers they are built on.

Objects are shared by reference in JavaScript: the exported record and the
chain configuration live on one heap, and a function called with a reference
can in principle write any object of that heap.  The last part of the
embedding therefore runs the hook on a heap holding both objects.
-/

namespace VueConfig

/-! ## The bundler chain configuration -/

/-- Error value of a failed JavaScript call: a method read on undefined, or a
call of something that is not a function. -/
inductive JSError where
  | typeError (msg : String)
  deriving DecidableEq, Repr

/-- Modelled from the spec: the entry-point list of one logical unit, a type of
the external bundler that is absent from src/.  It is a JavaScript Set of
paths: insertion ordered, and a path already present is not added again. -/
structure ChainedSet where
  store : List String
  deriving DecidableEq, Repr

/-- Modelled from the spec: the Set method clear of the absent bundler type,
which empties the entry-point list. -/
def ChainedSet.clear (_s : ChainedSet) : ChainedSet := ⟨[]⟩

/-- Modelled from the spec: the Set method add of the absent bundler type,
which appends a path unless the list already holds it. -/
def ChainedSet.add (s : ChainedSet) (value : String) : ChainedSet :=
  if value ∈ s.store then s else ⟨s.store ++ [value]⟩

/-- Modelled from the spec: Map lookup on the entry-point table of the absent
bundler type; the first binding of the key, none when the key is absent. -/
def lookupEntry (key : String) : List (String × ChainedSet) → Option ChainedSet
  | [] => none
  | (k, s) :: rest => if k = key then some s else lookupEntry key rest

/-- Modelled from the spec: Map assignment on the entry-point table of the
absent bundler type; an existing key keeps its position and takes the new
value, a new key is appended. -/
def storeEntry (key : String) (value : ChainedSet) :
    List (String × ChainedSet) → List (String × ChainedSet)
  | [] => [(key, value)]
  | (k, s) :: rest =>
      if k = key then (key, value) :: rest else (k, s) :: storeEntry key value rest

/-- Modelled from the spec: the chain configuration handed to the hook, a type
of the external bundler that is absent from src/.  It holds the table from
entry names to entry-point lists, and every other bundler setting in the
field others, whose contents the hook never names. -/
structure Config (σ : Type) where
  entryPoints : List (String × ChainedSet)
  others : σ

/-- Entry-point list registered under a name, if any. -/
def Config.get {σ : Type} (c : Config σ) (name : String) : Option ChainedSet :=
  lookupEntry name c.entryPoints

/-- Whether an entry name is registered. -/
def Config.has {σ : Type} (c : Config σ) (name : String) : Bool :=
  (c.get name).isSome

/-- Registers an entry-point list under a name. -/
def Config.set {σ : Type} (c : Config σ) (name : String) (s : ChainedSet) : Config σ :=
  { c with entryPoints := storeEntry name s c.entryPoints }

/-- Registered entry names, in insertion order. -/
def Config.names {σ : Type} (c : Config σ) : List String :=
  c.entryPoints.map Prod.fst

/-- Receiver of a chained method call: the chain configuration together with
the name of the entry-point list the call acts on.  The list is shared with
the configuration, so every method acts on the configuration in place. -/
structure EntryRef (σ : Type) where
  config : Config σ
  name : String

/-- Modelled from the spec: config.entry(name) of the absent bundler type.  It
creates an empty entry-point list under the name when none is registered and
yields the list registered under the name. -/
def Config.entry {σ : Type} (c : Config σ) (name : String) : EntryRef σ :=
  ⟨if c.has name then c else c.set name ⟨[]⟩, name⟩

/-- Chained call .clear(): a type error when the receiver is undefined,
otherwise the list is emptied in place and the receiver is returned. -/
def EntryRef.clear {σ : Type} (r : EntryRef σ) : Except JSError (EntryRef σ) :=
  match r.config.get r.name with
  | none => .error (.typeError "cannot read property clear of undefined")
  | some s => .ok ⟨r.config.set r.name s.clear, r.name⟩

/-- Chained call .add(value): a type error when the receiver is undefined,
otherwise the path is added in place and the receiver is returned. -/
def EntryRef.add {σ : Type} (r : EntryRef σ) (value : String) :
    Except JSError (EntryRef σ) :=
  match r.config.get r.name with
  | none => .error (.typeError "cannot read property add of undefined")
  | some s => .ok ⟨r.config.set r.name (s.add value), r.name⟩

/-! ## The exported object -/

/-- The hook of vue.config.js, lines 7 to 9:
config.entry('app').clear().add('./src/main.js').  The result is the chain
configuration after the call, or the error the call raised. -/
def chainWebpack {σ : Type} (config : Config σ) : Except JSError (Config σ) := do
  let r ← (config.entry "app").clear
  let r ← r.add "./src/main.js"
  pure r.config

/-- The function literals of vue.config.js.  A function value on the heap refers
to its literal; the only one is the hook at lines 7 to 9. -/
inductive FunctionLiteral where
  | chainWebpack
  deriving DecidableEq, Repr

/-- JavaScript values occurring in the exported object: strings, booleans,
objects as ordered lists of own properties, and function values. -/
inductive JSValue where
  | str (s : String)
  | bool (b : Bool)
  | obj (fields : List (String × JSValue))
  | func (fn : FunctionLiteral)

/-- Own property names of a value, in definition order. -/
def JSValue.keys : JSValue → List String
  | .obj fields => fields.map Prod.fst
  | _ => []

/-- Property read v[key]: none stands for undefined. -/
def JSValue.get (v : JSValue) (key : String) : Option JSValue :=
  match v with
  | .obj fields => (fields.find? (fun p => p.1 = key)).map Prod.snd
  | _ => none

/-- The object literal assigned to module.exports, lines 1 to 10. -/
def moduleExports : JSValue :=
  .obj [
    ("outputDir", .str "../static/dist"),
    ("productionSourceMap", .bool false),
    ("css", .obj [("extract", .bool true)]),
    ("chainWebpack", .func .chainWebpack)
  ]

/-! ## The heap of a build run -/

/-- An object on the heap: a plain record, such as the exported one, or a chain
configuration of the bundler. -/
inductive HeapObject (σ : Type) where
  | record (v : JSValue)
  | chain (c : Config σ)

/-- The heap: objects addressed by their position. -/
structure Heap (σ : Type) where
  objects : List (HeapObject σ)

/-- Object stored at an address; none for an address that holds nothing. -/
def Heap.read {σ : Type} (h : Heap σ) (addr : Nat) : Option (HeapObject σ) :=
  h.objects[addr]?

/-- Overwrites the object at an address. -/
def Heap.write {σ : Type} (h : Heap σ) (addr : Nat) (o : HeapObject σ) : Heap σ :=
  ⟨h.objects.set addr o⟩

/-- Call of a function literal of vue.config.js on a heap, with the address
bound to its one parameter.  The hook of lines 7 to 9 reads the object its
parameter config refers to: on a chain configuration the method chain of line 8
runs and its effect is stored back at that address; on anything else
config.entry is not a function.  The body names no other object. -/
def FunctionLiteral.call {σ : Type} (fn : FunctionLiteral) (h : Heap σ) (config : Nat) :
    Except JSError (Heap σ) :=
  match fn with
  | .chainWebpack =>
    match h.read config with
    | some (.chain c) => do
        let c1 ← VueConfig.chainWebpack c
        pure (h.write config (.chain c1))
    | _ => .error (.typeError "config.entry is not a function")

/-- State of a build run: the heap, the address of the record loaded from
vue.config.js and the address of the chain configuration of the bundler. -/
structure Build (σ : Type) where
  heap : Heap σ
  exports : Nat
  chain : Nat

/-- Modelled from the spec: the build tool at startup, absent from src/.  The
record of vue.config.js is loaded once, next to the chain configuration the
bundler starts from. -/
def Build.load {σ : Type} (c : Config σ) : Build σ :=
  ⟨⟨[.record moduleExports, .chain c]⟩, 0, 1⟩

/-- The record the build loaded, as it stands on the heap now. -/
def Build.loaded {σ : Type} (b : Build σ) : Option JSValue :=
  match b.heap.read b.exports with
  | some (.record v) => some v
  | _ => none

/-- The chain configuration of the build, as it stands on the heap now. -/
def Build.chainConfig {σ : Type} (b : Build σ) : Option (Config σ) :=
  match b.heap.read b.chain with
  | some (.chain c) => some c
  | _ => none

/-- Modelled from the spec: the bundler, absent from src/, invoking the
customization hook.  The chainWebpack property is read from the loaded record:
a function is called on the heap with the address of the chain configuration
as its argument and the heap it leaves becomes the heap of the build; a
record without the property has no hook to invoke; any other value is
malformed and rejected. -/
def Build.invokeHook {σ : Type} (b : Build σ) : Except JSError (Build σ) :=
  match b.loaded with
  | none => .error (.typeError "no configuration record is loaded")
  | some v =>
    match v.get "chainWebpack" with
    | none => pure b
    | some (.func fn) => do
        let h ← fn.call b.heap b.chain
        pure { b with heap := h }
    | some _ => .error (.typeError "chainWebpack is not a function")

/-- The hook invoked n times in a row. -/
def Build.invokeTimes {σ : Type} : Nat → Build σ → Except JSError (Build σ)
  | 0, b => pure b
  | n + 1, b => do
      let b ← b.invokeHook
      Build.invokeTimes n b

/-- A chain configuration with two registered entries, vendor and app, the
latter holding two paths; no other bundler settings. -/
def sampleConfig : Config Unit :=
  ⟨[("vendor", ⟨["./src/vendor.js"]⟩), ("app", ⟨["./src/index.js", "./src/a.js"]⟩)], ()⟩

/-! ## Lemmas on the entry-point table -/

theorem lookupEntry_storeEntry_self (key : String) (value : ChainedSet)
    (m : List (String × ChainedSet)) :
    lookupEntry key (storeEntry key value m) = some value := by
  induction m with
  | nil => simp [storeEntry, lookupEntry]
  | cons p rest ih =>
    obtain ⟨k, s⟩ := p
    by_cases h : k = key
    · simp [storeEntry, lookupEntry, h]
    · simp [storeEntry, lookupEntry, h, ih]

theorem lookupEntry_storeEntry_of_ne (key name : String) (value : ChainedSet)
    (m : List (String × ChainedSet)) (hne : name ≠ key) :
    lookupEntry name (storeEntry key value m) = lookupEntry name m := by
  induction m with
  | nil => simp [storeEntry, lookupEntry, Ne.symm hne]
  | cons p rest ih =>
    obtain ⟨k, s⟩ := p
    by_cases h : k = key
    · subst h
      simp [storeEntry, lookupEntry, Ne.symm hne]
    · by_cases h2 : k = name
      · subst h2
        simp [storeEntry, lookupEntry, h]
      · simp [storeEntry, lookupEntry, h, h2, ih]

theorem storeEntry_storeEntry (key : String) (v w : ChainedSet)
    (m : List (String × ChainedSet)) :
    storeEntry key v (storeEntry key w m) = storeEntry key v m := by
  induction m with
  | nil => simp [storeEntry]
  | cons p rest ih =>
    obtain ⟨k, s⟩ := p
    by_cases h : k = key
    · simp [storeEntry, h]
    · simp [storeEntry, h, ih]

theorem mem_names_storeEntry_of_ne (key name : String) (value : ChainedSet)
    (m : List (String × ChainedSet)) (hne : name ≠ key) :
    name ∈ (storeEntry key value m).map Prod.fst ↔ name ∈ m.map Prod.fst := by
  induction m with
  | nil => simp [storeEntry, hne]
  | cons p rest ih =>
    obtain ⟨k, s⟩ := p
    by_cases h : k = key
    · subst h
      simp [storeEntry, hne]
    · simp only [storeEntry, h, if_false, List.map_cons, List.mem_cons, ih]

/-- The hook always succeeds, and its effect is one assignment to the table:
the name app is bound to the one-path list. -/
theorem chainWebpack_eq {σ : Type} (c : Config σ) :
    chainWebpack c = .ok (c.set "app" ⟨["./src/main.js"]⟩) := by
  cases hc : lookupEntry "app" c.entryPoints with
  | none =>
    simp [chainWebpack, Config.entry, Config.has, Config.get, Config.set, EntryRef.clear,
      EntryRef.add, hc, lookupEntry_storeEntry_self, storeEntry_storeEntry, ChainedSet.clear,
      ChainedSet.add, bind, Except.bind, pure, Except.pure]
  | some s =>
    simp [chainWebpack, Config.entry, Config.has, Config.get, Config.set, EntryRef.clear,
      EntryRef.add, hc, lookupEntry_storeEntry_self, storeEntry_storeEntry, ChainedSet.clear,
      ChainedSet.add, bind, Except.bind, pure, Except.pure]

/-- A call of the hook writes the heap at the address it is passed and nowhere
else. -/
theorem call_chainWebpack_frame {σ : Type} (h h1 : Heap σ) (config addr : Nat)
    (hcall : FunctionLiteral.chainWebpack.call h config = .ok h1) (hne : addr ≠ config) :
    h1.read addr = h.read addr := by
  unfold FunctionLiteral.call at hcall
  cases hr : h.read config with
  | none => simp [hr] at hcall
  | some o =>
    cases o with
    | record v => simp [hr] at hcall
    | chain c =>
      simp [hr, chainWebpack_eq, bind, Except.bind, pure, Except.pure] at hcall
      subst hcall
      simp [Heap.read, Heap.write, List.getElem?_set_ne (Ne.symm hne)]

theorem Heap.read_write_of_ne {σ : Type} (h : Heap σ) (a addr : Nat) (o : HeapObject σ)
    (hne : addr ≠ a) : (h.write a o).read addr = h.read addr := by
  simp [Heap.read, Heap.write, List.getElem?_set_ne (Ne.symm hne)]

theorem Heap.read_write_self {σ : Type} (h : Heap σ) (a : Nat) (o o1 : HeapObject σ)
    (hr : h.read a = some o1) : (h.write a o).read a = some o := by
  have hlt : a < h.objects.length := by
    by_contra hge
    simp [Heap.read, List.getElem?_eq_none (Nat.le_of_not_lt hge)] at hr
  simp [Heap.read, Heap.write, List.getElem?_set_self hlt]

theorem Build.read_exports_of_loaded {σ : Type} (b : Build σ) (v : JSValue)
    (hrec : b.loaded = some v) : b.heap.read b.exports = some (.record v) := by
  unfold Build.loaded at hrec
  split at hrec <;> simp_all

theorem Build.read_chain_of_chainConfig {σ : Type} (b : Build σ) (c : Config σ)
    (hchain : b.chainConfig = some c) : b.heap.read b.chain = some (.chain c) := by
  unfold Build.chainConfig at hchain
  split at hchain <;> simp_all

/-- One invocation of the hook of the loaded record: the heap is written at the
address of the chain configuration, where app is bound to the one-path list. -/
theorem Build.invokeHook_of_loaded {σ : Type} (b : Build σ) (c : Config σ)
    (hrec : b.loaded = some moduleExports) (hchain : b.chainConfig = some c) :
    b.invokeHook =
      .ok { b with heap := b.heap.write b.chain (.chain (c.set "app" ⟨["./src/main.js"]⟩)) } := by
  have hr := b.read_chain_of_chainConfig c hchain
  simp [Build.invokeHook, hrec, moduleExports, JSValue.get, FunctionLiteral.call, hr,
    chainWebpack_eq, bind, Except.bind, pure, Except.pure]

/-- Any number of invocations: the build keeps its two addresses, the record
and every object away from the chain configuration read as before, and a
chain configuration still stands at its address. -/
theorem Build.invokeTimes_of_loaded {σ : Type} (n : Nat) (b : Build σ) (c : Config σ)
    (hrec : b.loaded = some moduleExports) (hchain : b.chainConfig = some c) :
    ∃ b1, Build.invokeTimes n b = .ok b1 ∧ b1.exports = b.exports ∧ b1.chain = b.chain ∧
      b1.loaded = some moduleExports ∧ (∃ c1, b1.chainConfig = some c1) ∧
      ∀ addr, addr ≠ b.chain → b1.heap.read addr = b.heap.read addr := by
  induction n generalizing b c with
  | zero => exact ⟨b, rfl, rfl, rfl, hrec, ⟨c, hchain⟩, fun _ _ => rfl⟩
  | succ n ih =>
    have hre := b.read_exports_of_loaded _ hrec
    have hrc := b.read_chain_of_chainConfig c hchain
    have hne : b.exports ≠ b.chain := by
      intro heq
      rw [heq, hrc] at hre
      cases hre
    have hrec2 : (Build.mk (b.heap.write b.chain (.chain (c.set "app" ⟨["./src/main.js"]⟩)))
        b.exports b.chain).loaded = some moduleExports := by
      simp [Build.loaded, Heap.read_write_of_ne _ _ _ _ hne, hre]
    have hchain2 : (Build.mk (b.heap.write b.chain (.chain (c.set "app" ⟨["./src/main.js"]⟩)))
        b.exports b.chain).chainConfig = some (c.set "app" ⟨["./src/main.js"]⟩) := by
      simp [Build.chainConfig, Heap.read_write_self _ _ _ _ hrc]
    obtain ⟨b1, h1, he, hc, hl, hcc, hframe⟩ := ih _ _ hrec2 hchain2
    refine ⟨b1, ?_, he, hc, hl, hcc, ?_⟩
    · simp [Build.invokeTimes, Build.invokeHook_of_loaded b c hrec hchain, bind, Except.bind]
      exact h1
    · intro addr haddr
      rw [hframe addr haddr]
      exact Heap.read_write_of_ne _ _ _ _ haddr

/-! ## The claims -/

/-- C1: the exported configuration object has outputDir equal to the string
../static/dist, productionSourceMap equal to false and css.extract equal to
true; extract is a property of the css group and not a top-level key. -/
theorem exports_settings :
    moduleExports.get "outputDir" = some (.str "../static/dist") ∧
    moduleExports.get "productionSourceMap" = some (.bool false) ∧
    (moduleExports.get "css").bind (fun css => css.get "extract") = some (.bool true) ∧
    moduleExports.get "extract" = none ∧
    "extract" ∉ moduleExports.keys := by
  refine ⟨?_, ?_, ?_, ?_, ?_⟩ <;> simp [moduleExports, JSValue.get, JSValue.keys]

/-- C2: for every chain configuration, whatever entry points it holds for app
beforehand, the hook succeeds and afterwards the entry-point list of app holds
exactly the one path ./src/main.js; and the outcome is the same for any two
prior contents of that list. -/
theorem chainWebpack_app_entry {σ : Type} (c : Config σ) :
    (∃ c1, chainWebpack c = .ok c1 ∧ c1.get "app" = some ⟨["./src/main.js"]⟩) ∧
    ∀ s t : ChainedSet, chainWebpack (c.set "app" s) = chainWebpack (c.set "app" t) := by
  refine ⟨⟨_, chainWebpack_eq c, ?_⟩, ?_⟩
  · simp [Config.get, Config.set, lookupEntry_storeEntry_self]
  · intro s t
    simp [chainWebpack_eq, Config.set, storeEntry_storeEntry]

/-- C3: the exported record and the chain configuration share one heap.  In
every build state whose loaded record is the one of vue.config.js and whose
chain address holds a chain configuration, invoking the hook of the record any
number of times succeeds and leaves the record as loaded, with outputDir,
productionSourceMap and css.extract at their loaded values; every address other
than that of the chain configuration it is passed holds what it held before. -/
theorem exports_unchanged_by_hook {σ : Type} (n : Nat) (b : Build σ) (c : Config σ)
    (addr : Nat) (hrec : b.loaded = some moduleExports) (hchain : b.chainConfig = some c)
    (hne : addr ≠ b.chain) :
    ∃ b1, Build.invokeTimes n b = .ok b1 ∧
      b1.exports = b.exports ∧
      b1.loaded = some moduleExports ∧
      b1.loaded.bind (fun v => v.get "outputDir") = some (.str "../static/dist") ∧
      b1.loaded.bind (fun v => v.get "productionSourceMap") = some (.bool false) ∧
      (b1.loaded.bind (fun v => v.get "css")).bind (fun css => css.get "extract")
        = some (.bool true) ∧
      b1.heap.read addr = b.heap.read addr := by
  obtain ⟨b1, h1, he, _, hl, _, hframe⟩ := Build.invokeTimes_of_loaded n b c hrec hchain
  refine ⟨b1, h1, he, hl, ?_, ?_, ?_, hframe addr hne⟩ <;>
    simp [hl, moduleExports, JSValue.get]

/-- Instance of the record frame property: three invocations on the build
loaded with the sample chain configuration, observed at the address of the
exported record. -/
theorem exports_unchanged_by_hook_witness :
    (Build.load sampleConfig).loaded = some moduleExports ∧
    (Build.load sampleConfig).chainConfig = some sampleConfig ∧
    (0 : Nat) ≠ (Build.load sampleConfig).chain ∧
    ∃ b1, Build.invokeTimes 3 (Build.load sampleConfig) = .ok b1 ∧
      b1.exports = (Build.load sampleConfig).exports ∧
      b1.loaded = some moduleExports ∧
      b1.loaded.bind (fun v => v.get "outputDir") = some (.str "../static/dist") ∧
      b1.loaded.bind (fun v => v.get "productionSourceMap") = some (.bool false) ∧
      (b1.loaded.bind (fun v => v.get "css")).bind (fun css => css.get "extract")
        = some (.bool true) ∧
      b1.heap.read 0 = (Build.load sampleConfig).heap.read 0 :=
  ⟨rfl, rfl, by decide,
    exports_unchanged_by_hook 3 (Build.load sampleConfig) sampleConfig 0 rfl rfl (by decide)⟩

/-- C4: the exported record has exactly the four top-level properties
outputDir, productionSourceMap, css and chainWebpack, so neither pages nor
publicPath is set, and its css group has exactly the one property extract. -/
theorem exports_keys :
    moduleExports.keys = ["outputDir", "productionSourceMap", "css", "chainWebpack"] ∧
    moduleExports.get "pages" = none ∧
    moduleExports.get "publicPath" = none ∧
    (moduleExports.get "css").map JSValue.keys = some ["extract"] := by
  refine ⟨?_, ?_, ?_, ?_⟩ <;> simp [moduleExports, JSValue.get, JSValue.keys]

/-- C5: the hook has no failure path: for every chain configuration it
completes with a resulting configuration and never with an error, also when
no entry named app is registered beforehand. -/
theorem chainWebpack_never_fails {σ : Type} (c : Config σ) :
    (∃ c1, chainWebpack c = .ok c1) ∧ ∀ e, chainWebpack c ≠ .error e := by
  refine ⟨⟨_, chainWebpack_eq c⟩, ?_⟩
  intro e h
  rw [chainWebpack_eq] at h
  cases h

/-- C6: the hook changes only the entry-point list named app: for every entry
name other than app the registered list is the same after the hook as before,
the name is registered afterwards exactly when it was before, and the other
bundler settings are untouched. -/
theorem chainWebpack_frame {σ : Type} (c : Config σ) (name : String)
    (hne : name ≠ "app") :
    ∃ c1, chainWebpack c = .ok c1 ∧ c1.get name = c.get name ∧
      (name ∈ c1.names ↔ name ∈ c.names) ∧ c1.others = c.others := by
  refine ⟨_, chainWebpack_eq c, ?_, ?_, rfl⟩
  · simp [Config.get, Config.set, lookupEntry_storeEntry_of_ne _ _ _ _ hne]
  · simp only [Config.names, Config.set]
    exact mem_names_storeEntry_of_ne _ _ _ _ hne

/-- Instance of the frame property: a configuration with the entries vendor and
app, observed at vendor. -/
theorem chainWebpack_frame_witness :
    "vendor" ≠ "app" ∧
    ∃ c1, chainWebpack sampleConfig = .ok c1 ∧
      c1.get "vendor" = sampleConfig.get "vendor" ∧
      ("vendor" ∈ c1.names ↔ "vendor" ∈ sampleConfig.names) ∧
      c1.others = sampleConfig.others :=
  ⟨by decide, chainWebpack_frame sampleConfig "vendor" (by decide)⟩

/-- C7: the hook is idempotent: running it on its own result gives the same
chain configuration as running it once. -/
theorem chainWebpack_idempotent {σ : Type} (c : Config σ) :
    (chainWebpack c >>= chainWebpack) = chainWebpack c := by
  simp [chainWebpack_eq, Config.set, storeEntry_storeEntry, bind, Except.bind]

end VueConfig
